import Mathlib

/-!
Shallow embedding of the core of `backend/main.py` (bert-studio):
the code-admission checker, the sandboxed custom-task executor with its
two HTTP endpoints, and the model lifecycle stores with their endpoints.

Modelling conventions:
* Python strings are Lean `String`; Python `pat in s` is `strHas s pat`
  (explicit character-list search, so that occurrence lemmas can be proved).
* A raised `HTTPException(status_code, detail)` is the value
  `HTTPException.mk status_code detail`; `str(e)` of such an exception is
  `"{status_code}: {detail}"` (starlette's `HTTPException.__str__`).
* `exec` of an untrusted fragment and the call of `custom_function` are
  opaque: their outcomes are supplied by a `Sandbox` oracle.  An exception
  raised by user code is represented by the string `str(e)` produces.
  (`BaseException`s that `except Exception` would not catch are outside
  the model.)
* The registry endpoints run their FastAPI background task to completion
  before the next request is observed (single-worker serialization), so a
  request together with its background unit is one atomic step.
-/

-- ===========================================================================

-- Definitions (shallow embedding of backend/main.py)

-- ===========================================================================

/-- Does the pattern `p` occur at the start of `s`? (character lists) -/
def charsStart : List Char → List Char → Bool
  | [], _ => true
  | _ :: _, [] => false
  | a :: as, b :: bs => a == b && charsStart as bs

/-- Does the pattern `p` occur anywhere in `s`? (character lists) -/
def charsHas (p : List Char) : List Char → Bool
  | [] => p.isEmpty
  | c :: rest => charsStart p (c :: rest) || charsHas p rest

/-- Embedding of Python `pat in s` (substring occurrence). -/
def strHas (s pat : String) : Bool := charsHas pat.data s.data

/-- A raised FastAPI `HTTPException(status_code, detail)`. -/
structure HTTPException where
  status_code : Nat
  detail : String
deriving DecidableEq, Repr

/-- The exact denylist table of main.py lines 699-705. -/
def disallowed_imports : List String :=
  ["import os", "from os", "import sys", "from sys", "import subprocess",
   "from subprocess", "import eval", "from eval", "import exec", "from exec",
   "import __import__", "from __import__", "import globals", "from globals",
   "import locals", "from locals", "import open", "from open", "import file",
   "from file", "import input", "from input", "import raw_input", "from raw_input"]

/-- The allow-list of main.py line 716. -/
def allowed_imports : List String :=
  ["import torch", "from torch", "import transformers", "from transformers"]

/-- Embedding of Python `str.lower()` (character-wise; the fragments and the
table are ASCII). -/
def strLower (s : String) : String := ⟨s.data.map Char.toLower⟩

/-- Embedding of `_validate_and_sanitize_code(code, code_type)`: returns the
code unchanged or the raised `HTTPException`. -/
def _validate_and_sanitize_code (code : String) (code_type : String) :
    Except HTTPException String :=
  match disallowed_imports.find? (fun d => strHas (strLower code) d) with
  | some d =>
      .error ⟨400, "Security violation: " ++ d ++ " is not allowed in " ++ code_type ++ " code"⟩
  | none =>
      if !(allowed_imports.any (fun a => strHas (strLower code) a))
          && (strHas (strLower code) "import" || strHas (strLower code) "from") then
        .error ⟨400, "Only \x27transformers\x27 and \x27torch\x27 imports are allowed in "
                      ++ code_type ++ " code. Implicit imports are forbidden."⟩
      else
        .ok code

/-- A value produced by sandboxed Python code, as far as the endpoints
inspect it: `None`, a list (the only shape `isinstance(results, list)`
accepts in batch mode), or an opaque object. -/
inductive PyObj where
  | pynone
  | pylist (xs : List PyObj)
  | atom (n : Nat)

/-- Outcome of `exec(fragment, restricted_globals)` followed by the
required-name membership test. -/
inductive ExecOutcome where
  | raises (msg : String)
  | binds
  | noBind
deriving DecidableEq, Repr

/-- Outcome of calling `custom_function`. -/
inductive CallOutcome where
  | raises (msg : String)
  | returns (v : PyObj)

/-- Oracle for the opaque Python evaluation steps of one request: what each
`exec` does to the restricted namespace, and what the `custom_function`
call returns.  `raises msg` carries the `str(e)` of the raised exception. -/
structure Sandbox where
  tokenizerOutcome : ExecOutcome
  modelOutcome : ExecOutcome
  functionOutcome : ExecOutcome
  callSingle : String → CallOutcome
  callBatch : List String → CallOutcome

/-- A Python exception as the executors distinguish them: a raised
`HTTPException`, a `ValueError` raised by the contract checks, or any
exception escaping user code (represented by its `str`). -/
inductive PyExc where
  | http (e : HTTPException)
  | valueError (msg : String)
  | generic (msg : String)
deriving DecidableEq, Repr

/-- `str(e)` for the exceptions above (starlette renders an
`HTTPException` as `"{status_code}: {detail}"`). -/
def PyExc.toStr : PyExc → String
  | .http e => toString e.status_code ++ ": " ++ e.detail
  | .valueError msg => msg
  | .generic msg => msg

/-- Observable side effects of `_execute_custom_task`, used to state that an
admission rejection happens before the namespace is built and before any
fragment is evaluated. -/
inductive SandboxEvent where
  | namespaceBuilt
  | evalCode (fragment : String)
  | callFunction
deriving DecidableEq, Repr

/-- The wrapping of main.py line 856: every failure inside
`_execute_custom_task` is re-raised as
`HTTPException(400, "Custom task execution failed: " + str(e))`. -/
def execFailed (e : PyExc) : HTTPException :=
  ⟨400, "Custom task execution failed: " ++ e.toStr⟩

/-- Embedding of `_execute_custom_task` (main.py 727-856).  Returns the
raised `HTTPException` or the result, paired with the trace of evaluation
side effects that occurred. -/
def _execute_custom_task (sb : Sandbox) (tokenizer_code model_code function_code
    input_text model_id : String) : Except HTTPException PyObj × List SandboxEvent :=
  match _validate_and_sanitize_code tokenizer_code "tokenizer" with
  | .error e => (.error (execFailed (.http e)), [])
  | .ok _ =>
  match _validate_and_sanitize_code model_code "model" with
  | .error e => (.error (execFailed (.http e)), [])
  | .ok _ =>
  match _validate_and_sanitize_code function_code "function" with
  | .error e => (.error (execFailed (.http e)), [])
  | .ok _ =>
  -- restricted_globals is built here; model_id is bound into it
  match sb.tokenizerOutcome with
  | .raises m => (.error (execFailed (.generic m)),
      [.namespaceBuilt, .evalCode "tokenizer"])
  | .noBind => (.error (execFailed (.valueError
      "Tokenizer code must assign to variable \x27tokenizer\x27")),
      [.namespaceBuilt, .evalCode "tokenizer"])
  | .binds =>
  match sb.modelOutcome with
  | .raises m => (.error (execFailed (.generic m)),
      [.namespaceBuilt, .evalCode "tokenizer", .evalCode "model"])
  | .noBind => (.error (execFailed (.valueError
      "Model code must assign to variable \x27model\x27")),
      [.namespaceBuilt, .evalCode "tokenizer", .evalCode "model"])
  | .binds =>
  match sb.functionOutcome with
  | .raises m => (.error (execFailed (.generic m)),
      [.namespaceBuilt, .evalCode "tokenizer", .evalCode "model", .evalCode "function"])
  | .noBind => (.error (execFailed (.valueError
      "Function code must define a function named \x27custom_function\x27")),
      [.namespaceBuilt, .evalCode "tokenizer", .evalCode "model", .evalCode "function"])
  | .binds =>
  match sb.callSingle input_text with
  | .raises m => (.error (execFailed (.generic m)),
      [.namespaceBuilt, .evalCode "tokenizer", .evalCode "model", .evalCode "function",
       .callFunction])
  | .returns v => (.ok v,
      [.namespaceBuilt, .evalCode "tokenizer", .evalCode "model", .evalCode "function",
       .callFunction])

structure CustomTaskRequest where
  tokenizer_code : String
  model_code : String
  function_code : String
  input_text : String
  model_id : String

/-- The `/custom-task` response envelope (`result`, `error`). -/
structure CustomTaskResponse where
  result : PyObj
  error : Option String

/-- Embedding of the `/custom-task` endpoint (main.py 858-873).  The return
type allows an HTTP fault so that "never faults" is a statement, not a
typing accident; the body mirrors the `try/except Exception` that catches
everything `_execute_custom_task` raises. -/
def execute_custom_task (sb : Sandbox) (request : CustomTaskRequest) :
    Except HTTPException CustomTaskResponse :=
  match (_execute_custom_task sb request.tokenizer_code request.model_code
          request.function_code request.input_text request.model_id).1 with
  | .ok result => .ok ⟨result, none⟩
  | .error e => .ok ⟨.pynone, some (PyExc.toStr (.http e))⟩

structure BatchCustomTaskRequest where
  tokenizer_code : String
  model_code : String
  function_code : String
  input_texts : List String
  model_id : String

/-- The `/custom-task/batch` response envelope (`results`, `errors`). -/
structure BatchCustomTaskResponse where
  results : List PyObj
  errors : List (Option String)

/-- The `try`-block body of `execute_custom_task_batch` (main.py 881-995):
validation, namespace construction, the three `exec`s, the single call of
`custom_function` on the whole list, and the `isinstance(results, list)`
check.  Note: the length of the returned list is never compared with
`len(input_texts)`. -/
def batchTaskInner (sb : Sandbox) (request : BatchCustomTaskRequest) :
    Except PyExc (List PyObj) :=
  match _validate_and_sanitize_code request.tokenizer_code "tokenizer" with
  | .error e => .error (.http e)
  | .ok _ =>
  match _validate_and_sanitize_code request.model_code "model" with
  | .error e => .error (.http e)
  | .ok _ =>
  match _validate_and_sanitize_code request.function_code "function" with
  | .error e => .error (.http e)
  | .ok _ =>
  match sb.tokenizerOutcome with
  | .raises m => .error (.generic m)
  | .noBind => .error (.valueError "Tokenizer code must assign to variable \x27tokenizer\x27")
  | .binds =>
  match sb.modelOutcome with
  | .raises m => .error (.generic m)
  | .noBind => .error (.valueError "Model code must assign to variable \x27model\x27")
  | .binds =>
  match sb.functionOutcome with
  | .raises m => .error (.generic m)
  | .noBind => .error (.valueError "Function code must define a function named \x27custom_function\x27")
  | .binds =>
  match sb.callBatch request.input_texts with
  | .raises m => .error (.generic m)
  | .returns v =>
  match v with
  | .pylist results => .ok results
  | _ => .error (.valueError "custom_function must return a list of results, one per input text")

/-- Embedding of the `/custom-task/batch` endpoint (main.py 875-997):
success returns the list as-is with `[None] * len(results)` errors; the
`except Exception` branch returns `[None] * len(input_texts)` results and
`[str(e)] * len(input_texts)` errors. -/
def execute_custom_task_batch (sb : Sandbox) (request : BatchCustomTaskRequest) :
    Except HTTPException BatchCustomTaskResponse :=
  match batchTaskInner sb request with
  | .ok results => .ok ⟨results, List.replicate results.length none⟩
  | .error e => .ok ⟨List.replicate request.input_texts.length .pynone,
                     List.replicate request.input_texts.length (some e.toStr)⟩

/-- Python dict keyed by strings, as an association list (insertion order is
irrelevant to every claim). -/
abbrev Dict (α : Type) : Type := List (String × α)

def dictGet {α : Type} : Dict α → String → Option α
  | [], _ => none
  | (k0, v) :: rest, k => if k0 == k then some v else dictGet rest k

def dictDel {α : Type} (d : Dict α) (k : String) : Dict α :=
  d.filter (fun p => p.1 != k)

def dictSet {α : Type} (d : Dict α) (k : String) (v : α) : Dict α :=
  dictDel d k ++ [(k, v)]

/-- All values of the dict satisfy `p`. -/
def dictAll {α : Type} (d : Dict α) (p : α → Bool) : Bool :=
  d.all (fun kv => p kv.2)

def listInsert (l : List String) (k : String) : List String :=
  if l.contains k then l else l ++ [k]

def listRemove (l : List String) (k : String) : List String :=
  l.filter (fun x => x != k)

/-- The claim-relevant fields of a `downloaded_models` entry (the size and
timestamp bookkeeping fields are elided). -/
structure DownloadInfo where
  status : String
  progress : Nat
deriving DecidableEq, Repr

/-- A `loading_models` entry: status, progress, and the error message that
the failure path records. -/
structure LoadingInfo where
  status : String
  progress : Nat
  error_message : Option String
deriving DecidableEq, Repr

/-- The process-wide in-memory stores of main.py lines 103-112, plus the
external HuggingFace cache that `scan_cache_dir` observes.  The model and
tokenizer handles themselves are opaque, so `loaded_models` and
`loaded_tokenizers` keep only their keys (the code never stores `None`). -/
structure BackendState where
  downloaded_models : Dict DownloadInfo
  loaded_models : List String
  loaded_tokenizers : List String
  loading_models : Dict LoadingInfo
  hf_cache : List String
  stats_loaded : Nat
deriving DecidableEq, Repr

/-- What an endpoint hands back: a raised `HTTPException` or a
`MessageResponse`. -/
inductive HttpResult where
  | fault (status_code : Nat) (detail : String)
  | message (m : String)
deriving DecidableEq, Repr

/-- `downloaded_models[id].get("status") == "completed"` guarded by
membership (main.py line 634 and the first branch of line 503). -/
def downloadedCompleted (s : BackendState) (model_id : String) : Bool :=
  match dictGet s.downloaded_models model_id with
  | some info => info.status == "completed"
  | none => false

/-- How a `_download_model_task` run ends: full success (files cached, entry
completed, model auto-loaded), or failure after/before the `downloading`
entry was inserted. -/
inductive DlOutcome where
  | success
  | failure (started : Bool)
deriving DecidableEq, Repr

/-- Embedding of `_download_model_task` (main.py 124-185) run to completion.
On success the entry is `completed`, the files are in the HF cache, and the
model and tokenizer are auto-loaded if not already present.  On failure the
entry (if any) is marked `failed` with progress 0. -/
def _download_model_task (s : BackendState) (model_id : String) (outcome : DlOutcome) :
    BackendState :=
  match outcome with
  | .success =>
    let s1 := { s with
      downloaded_models := dictSet s.downloaded_models model_id ⟨"completed", 100⟩,
      hf_cache := listInsert s.hf_cache model_id }
    if s1.loaded_models.contains model_id then s1
    else { s1 with
      loaded_models := listInsert s1.loaded_models model_id,
      loaded_tokenizers := listInsert s1.loaded_tokenizers model_id,
      stats_loaded := s1.stats_loaded + 1 }
  | .failure started =>
    if started || (dictGet s.downloaded_models model_id).isSome then
      { s with downloaded_models := dictSet s.downloaded_models model_id ⟨"failed", 0⟩ }
    else s

/-- Embedding of `_load_model_task` (main.py 187-233) run to completion.
Success installs both handles and marks the loading entry `completed`;
failure marks it `failed` with the error message and deletes any handles. -/
def _load_model_task (s : BackendState) (model_id : String) (ok : Bool)
    (errMsg : String) : BackendState :=
  if ok then
    { s with
      loaded_models := listInsert s.loaded_models model_id,
      loaded_tokenizers := listInsert s.loaded_tokenizers model_id,
      stats_loaded := s.stats_loaded + 1,
      loading_models := dictSet s.loading_models model_id ⟨"completed", 100, none⟩ }
  else
    { s with
      loading_models := dictSet s.loading_models model_id ⟨"failed", 0, some errMsg⟩,
      loaded_models := listRemove s.loaded_models model_id,
      loaded_tokenizers := listRemove s.loaded_tokenizers model_id }

/-- `model_id in downloaded_models and downloaded_models[model_id]["status"]
in ["completed", "downloading"]` (main.py line 503). -/
def downloadInProgressOrDone (s : BackendState) (model_id : String) : Bool :=
  match dictGet s.downloaded_models model_id with
  | some info => info.status == "completed" || info.status == "downloading"
  | none => false

/-- The already-loaded guard of main.py lines 625-626. -/
def alreadyLoaded (s : BackendState) (model_id : String) : Bool :=
  s.loaded_models.contains model_id && s.loaded_tokenizers.contains model_id

/-- The already-loading guard of main.py line 630. -/
def loadingInProgress (s : BackendState) (model_id : String) : Bool :=
  match dictGet s.loading_models model_id with
  | some st => st.status == "loading"
  | none => false

/-- Embedding of the `POST /models/download` endpoint (main.py 495-506)
together with its background task.  The third component records whether a
background unit was scheduled. -/
def download_model (s : BackendState) (model_id : String) (outcome : DlOutcome) :
    HttpResult × BackendState × Bool :=
  if model_id == "" then
    (.fault 400 "model_id must be a non-empty string", s, false)
  else if downloadInProgressOrDone s model_id then
    (.message ("Model " ++ model_id ++ " already downloaded or is downloading."), s, false)
  else
    (.message ("Started downloading " ++ model_id),
     _download_model_task s model_id outcome, true)

/-- Embedding of the `POST /models/load` endpoint (main.py 615-651) together
with its background task.  The third component records whether a background
unit was scheduled. -/
def load_model (s : BackendState) (model_id : String) (ok : Bool) (errMsg : String) :
    HttpResult × BackendState × Bool :=
  if model_id == "" then
    (.fault 400 "model_id must be a non-empty string", s, false)
  else if alreadyLoaded s model_id then
    (.message ("Model " ++ model_id ++ " is already loaded."), s, false)
  else if loadingInProgress s model_id then
    (.message ("Model " ++ model_id ++ " is already being loaded."), s, false)
  else
    let in_downloaded := downloadedCompleted s model_id
    let in_cache := !in_downloaded && s.hf_cache.contains model_id
    if !in_downloaded && !in_cache then
      (.fault 400 "Model is not downloaded, not ready, and not found in cache.", s, false)
    else
      (.message ("Started loading " ++ model_id ++ " in the background"),
       _load_model_task s model_id ok errMsg, true)

/-- Embedding of `DELETE /models/downloaded?author=..&model=..`
(main.py 541-574): removes the id from every store and from the cache. -/
def delete_downloaded_model (s : BackendState) (author model : String) :
    HttpResult × BackendState :=
  let model_id := author ++ "/" ++ model
  let in_memory_deleted := (dictGet s.downloaded_models model_id).isSome
  let cache_deleted := s.hf_cache.contains model_id
  let s1 := { s with
    downloaded_models := dictDel s.downloaded_models model_id,
    loaded_models := listRemove s.loaded_models model_id,
    loaded_tokenizers := listRemove s.loaded_tokenizers model_id,
    hf_cache := listRemove s.hf_cache model_id }
  let s2 := if in_memory_deleted then { s1 with stats_loaded := s1.stats_loaded - 1 } else s1
  if in_memory_deleted || cache_deleted then
    (.message ("Deleted " ++ model_id ++ " from memory and/or HuggingFace cache"), s2)
  else
    (.fault 404 "Model not found in memory or cache", s2)

/-- Embedding of `_cleanup_loading_status` (main.py 235-256).  Wall-clock age
is abstracted into the `stale` list: only entries in a terminal status are
ever dropped. -/
def _cleanup_loading_status (s : BackendState) (stale : List String) : BackendState :=
  { s with loading_models := (s.loading_models.filter
      (fun p => !(stale.contains p.1 && (p.2.status == "completed" || p.2.status == "failed")))) }

/-- The serialized request events the stores react to. -/
inductive Ev where
  | download (model_id : String) (outcome : DlOutcome)
  | load (model_id : String) (ok : Bool) (errMsg : String)
  | deleteModel (author model : String)
  | cleanup (stale : List String)

def step (s : BackendState) : Ev → BackendState
  | .download model_id outcome => (download_model s model_id outcome).2.1
  | .load model_id ok errMsg => (load_model s model_id ok errMsg).2.1
  | .deleteModel author model => (delete_downloaded_model s author model).2
  | .cleanup stale => _cleanup_loading_status s stale

def runEvents (s : BackendState) (evs : List Ev) : BackendState :=
  evs.foldl step s

/-- Startup state: empty stores, an arbitrary pre-existing HF cache. -/
def initState (cache : List String) : BackendState :=
  ⟨[], [], [], [], cache, 0⟩

/-- A state the service can actually be observed in: reached from startup by
a sequence of serialized requests. -/
def Reachable (s : BackendState) : Prop :=
  ∃ cache evs, s = runEvents (initState cache) evs

/-- Every loaded model is recorded as downloaded-completed or sits in the
external HF cache. -/
def loadedImpliesAvailable (s : BackendState) : Bool :=
  s.loaded_models.all (fun id => downloadedCompleted s id || s.hf_cache.contains id)

/-- No `loading_models` entry is observable in the transient `loading`
status between serialized requests. -/
def noTransientLoading (s : BackendState) : Bool :=
  dictAll s.loading_models (fun st => st.status != "loading")

def stateInv (s : BackendState) : Bool :=
  loadedImpliesAvailable s && noTransientLoading s

/-- All-pass sandbox oracle used by concrete runs. -/
def sbW : Sandbox :=
  ⟨.binds, .binds, .binds, fun _ => .returns .pynone, fun _ => .returns .pynone⟩

/-- The first admission error of the three fragments, in the order the code
validates them (tokenizer, model, function). -/
def firstAdmissionError (tokenizer_code model_code function_code : String) :
    Option HTTPException :=
  match _validate_and_sanitize_code tokenizer_code "tokenizer" with
  | .error e => some e
  | .ok _ =>
  match _validate_and_sanitize_code model_code "model" with
  | .error e => some e
  | .ok _ =>
  match _validate_and_sanitize_code function_code "function" with
  | .error e => some e
  | .ok _ => none

/-- Sandbox oracle whose `custom_function` returns a 2-element list whatever
the batch input is. -/
def sbLenBug : Sandbox :=
  ⟨.binds, .binds, .binds, fun _ => .returns .pynone,
   fun _ => .returns (.pylist [.atom 1, .atom 2])⟩

/-- Sandbox oracle whose tokenizer `exec` raises. -/
def sbRaise : Sandbox :=
  ⟨.raises "boom", .binds, .binds, fun _ => .returns .pynone, fun _ => .returns .pynone⟩

/-- The trace refuting C4: load a model that sits only in the external HF
cache, never downloaded through the service. -/
def c4_trace : List Ev := [.load "org/model" true ""]

def c4_state : BackendState := runEvents (initState ["org/model"]) c4_trace

-- ===========================================================================

-- Theorems

-- ===========================================================================

theorem charsStart_append_left (p q s : List Char) (h : charsStart (p ++ q) s = true) :
    charsStart p s = true := by
  induction p generalizing s with
  | nil => rfl
  | cons a as ih =>
    cases s with
    | nil => simp [charsStart] at h
    | cons b bs =>
      simp only [List.cons_append, charsStart, Bool.and_eq_true] at h ⊢
      exact ⟨h.1, ih bs h.2⟩

theorem charsStart_trans (p q s : List Char) (hpq : charsStart p q = true)
    (hqs : charsStart q s = true) : charsStart p s = true := by
  induction p generalizing q s with
  | nil => rfl
  | cons a as ih =>
    cases q with
    | nil => simp [charsStart] at hpq
    | cons b bs =>
      cases s with
      | nil => simp [charsStart] at hqs
      | cons c cs =>
        simp only [charsStart, Bool.and_eq_true, beq_iff_eq] at hpq hqs ⊢
        exact ⟨hpq.1.trans hqs.1, ih bs cs hpq.2 hqs.2⟩

theorem charsHas_of_starts (p s : List Char) (h : charsStart p s = true) :
    charsHas p s = true := by
  cases s with
  | nil => cases p with
    | nil => rfl
    | cons a as => simp [charsStart] at h
  | cons c cs => simp [charsHas, h]

theorem charsHas_mono (p q s : List Char) (hpq : charsStart p q = true)
    (h : charsHas q s = true) : charsHas p s = true := by
  induction s with
  | nil =>
    simp only [charsHas, List.isEmpty_iff] at h
    subst h
    cases p with
    | nil => rfl
    | cons a as => simp [charsStart] at hpq
  | cons c cs ih =>
    simp only [charsHas, Bool.or_eq_true] at h ⊢
    cases h with
    | inl h => exact Or.inl (charsStart_trans p q (c :: cs) hpq h)
    | inr h => exact Or.inr (ih h)

/-- If `q` occurs in `s` and `p` is a prefix of `q`, then `p` occurs in `s`. -/
theorem strHas_mono (s p q : String) (hpq : charsStart p.data q.data = true)
    (h : strHas s q = true) : strHas s p = true :=
  charsHas_mono p.data q.data s.data hpq h

theorem charsHas_append_right (p q s : List Char) (h : charsHas p s = true) :
    charsHas p (q ++ s) = true := by
  induction q with
  | nil => exact h
  | cons c cs ih => simp only [List.cons_append, charsHas, Bool.or_eq_true]; exact Or.inr ih

theorem charsStart_refl (p : List Char) : charsStart p p = true := by
  induction p with
  | nil => rfl
  | cons a as ih => simp [charsStart, ih]

/-- A string occurs in anything of which it is a suffix. -/
theorem strHas_append_self (q p : String) : strHas (q ++ p) p = true := by
  show charsHas p.data (q ++ p).data = true
  have hdata : (q ++ p).data = q.data ++ p.data := rfl
  rw [hdata]
  exact charsHas_append_right _ _ _ (charsHas_of_starts _ _ (charsStart_refl p.data))

theorem contains_mem (l : List String) (a : String) : l.contains a = true ↔ a ∈ l :=
  List.elem_iff

theorem dictGet_append {α : Type} (d1 d2 : Dict α) (k : String) :
    dictGet (d1 ++ d2) k =
      (match dictGet d1 k with | some v => some v | none => dictGet d2 k) := by
  induction d1 with
  | nil => rfl
  | cons kv rest ih =>
    obtain ⟨k0, v0⟩ := kv
    by_cases h : (k0 == k) = true
    · simp [dictGet, h]
    · simp only [Bool.not_eq_true] at h
      simp [dictGet, h, ih]

theorem dictDel_cons_self {α : Type} (k0 : String) (v0 : α) (rest : Dict α) :
    dictDel ((k0, v0) :: rest) k0 = dictDel rest k0 := by
  simp [dictDel, List.filter_cons]

theorem dictDel_cons_ne {α : Type} (k0 : String) (v0 : α) (rest : Dict α) (k : String)
    (h : k0 ≠ k) : dictDel ((k0, v0) :: rest) k = (k0, v0) :: dictDel rest k := by
  simp [dictDel, List.filter_cons, bne_iff_ne.mpr h]

theorem dictGet_del_self {α : Type} (d : Dict α) (k : String) :
    dictGet (dictDel d k) k = none := by
  induction d with
  | nil => rfl
  | cons kv rest ih =>
    obtain ⟨k0, v0⟩ := kv
    by_cases h : k0 = k
    · subst h
      rw [dictDel_cons_self]
      exact ih
    · rw [dictDel_cons_ne k0 v0 rest k h]
      simp only [dictGet, beq_eq_false_iff_ne.mpr h, Bool.false_eq_true, if_false]
      exact ih

theorem dictGet_del_ne {α : Type} (d : Dict α) (k k' : String) (h : k' ≠ k) :
    dictGet (dictDel d k) k' = dictGet d k' := by
  induction d with
  | nil => rfl
  | cons kv rest ih =>
    obtain ⟨k0, v0⟩ := kv
    by_cases h0 : k0 = k
    · subst h0
      have hk' : (k0 == k') = false := beq_eq_false_iff_ne.mpr (fun he => h (he ▸ rfl))
      rw [dictDel_cons_self]
      simp only [dictGet, hk', Bool.false_eq_true, if_false]
      exact ih
    · rw [dictDel_cons_ne k0 v0 rest k h0]
      simp only [dictGet]
      by_cases h1 : (k0 == k') = true
      · simp [h1]
      · simp only [Bool.not_eq_true] at h1
        simp [h1, ih]

theorem dictGet_set_self {α : Type} (d : Dict α) (k : String) (v : α) :
    dictGet (dictSet d k v) k = some v := by
  simp [dictSet, dictGet_append, dictGet_del_self, dictGet]

theorem dictGet_set_ne {α : Type} (d : Dict α) (k k' : String) (v : α) (h : k' ≠ k) :
    dictGet (dictSet d k v) k' = dictGet d k' := by
  rw [dictSet, dictGet_append, dictGet_del_ne d k k' h]
  have hk : (k == k') = false := beq_eq_false_iff_ne.mpr (fun he => h (he ▸ rfl))
  cases hd : dictGet d k' with
  | some v0 => rfl
  | none => simp [dictGet, hk]

theorem dictAll_get {α : Type} (d : Dict α) (p : α → Bool) (k : String) (v : α)
    (hall : dictAll d p = true) (hget : dictGet d k = some v) : p v = true := by
  induction d with
  | nil => simp [dictGet] at hget
  | cons kv rest ih =>
    obtain ⟨k0, v0⟩ := kv
    simp only [dictAll, List.all_cons, Bool.and_eq_true] at hall
    simp only [dictGet] at hget
    by_cases h : (k0 == k) = true
    · rw [if_pos h] at hget
      cases hget
      exact hall.1
    · rw [if_neg h] at hget
      exact ih hall.2 hget

theorem dictAll_filter {α : Type} (d : Dict α) (p : α → Bool) (q : String × α → Bool)
    (h : dictAll d p = true) : dictAll (d.filter q) p = true := by
  simp only [dictAll, List.all_eq_true] at h ⊢
  intro kv hkv
  exact h kv (List.mem_filter.mp hkv).1

theorem dictAll_set {α : Type} (d : Dict α) (p : α → Bool) (k : String) (v : α)
    (h : dictAll d p = true) (hv : p v = true) : dictAll (dictSet d k v) p = true := by
  simp only [dictSet, dictAll, List.all_append, Bool.and_eq_true]
  exact ⟨dictAll_filter d p _ h, by simp [hv]⟩

theorem mem_listInsert (l : List String) (k x : String) :
    x ∈ listInsert l k ↔ x ∈ l ∨ x = k := by
  unfold listInsert
  by_cases h : l.contains k = true
  · rw [if_pos h]
    constructor
    · exact Or.inl
    · rintro (hx | rfl)
      · exact hx
      · exact (contains_mem l x).mp h
  · rw [if_neg h]
    simp [List.mem_append]

theorem mem_listRemove (l : List String) (k x : String) :
    x ∈ listRemove l k ↔ x ∈ l ∧ x ≠ k := by
  simp [listRemove, List.mem_filter, bne_iff_ne]

theorem contains_listRemove_self (l : List String) (k : String) :
    (listRemove l k).contains k = false := by
  apply Bool.eq_false_iff.mpr
  intro h
  exact ((mem_listRemove l k k).mp ((contains_mem _ _).mp h)).2 rfl

/-- Transfer principle for `loadedImpliesAvailable`: the new state may add at
most the one id whose availability is supplied, and must preserve the
availability evidence of every surviving loaded id. -/
theorem avail_insert (s s' : BackendState) (id : String)
    (hl : ∀ x, x ∈ s'.loaded_models → x ∈ s.loaded_models ∨ x = id)
    (hid : id ∈ s'.loaded_models →
      downloadedCompleted s' id = true ∨ s'.hf_cache.contains id = true)
    (hd : ∀ x, x ∈ s'.loaded_models → x ∈ s.loaded_models →
      downloadedCompleted s x = true → downloadedCompleted s' x = true)
    (hc : ∀ x, x ∈ s'.loaded_models → x ∈ s.loaded_models →
      s.hf_cache.contains x = true → s'.hf_cache.contains x = true)
    (hA : loadedImpliesAvailable s = true) : loadedImpliesAvailable s' = true := by
  simp only [loadedImpliesAvailable, List.all_eq_true] at hA ⊢
  intro x hx
  simp only [Bool.or_eq_true]
  rcases hl x hx with hmem | rfl
  · have hav := hA x hmem
    simp only [Bool.or_eq_true] at hav
    rcases hav with hcomp | hcache
    · exact Or.inl (hd x hx hmem hcomp)
    · exact Or.inr (hc x hx hmem hcache)
  · exact hid hx

/-- The guard of `download_model` refuted means the entry is not
`completed`. -/
theorem guard_not_completed (s : BackendState) (model_id : String)
    (hnd : downloadInProgressOrDone s model_id = false) :
    downloadedCompleted s model_id = false := by
  rw [downloadInProgressOrDone] at hnd
  rw [downloadedCompleted]
  cases hg : dictGet s.downloaded_models model_id with
  | none => rfl
  | some info =>
    rw [hg] at hnd
    have hnd2 : (info.status == "completed" || info.status == "downloading") = false := hnd
    apply Bool.eq_false_iff.mpr
    intro hc
    have hc2 : (info.status == "completed") = true := hc
    rw [hc2] at hnd2
    exact absurd hnd2 (by simp)

/-- A finished `_download_model_task` preserves the invariants, provided the
endpoint guard admitted it (entry not `completed`/`downloading`). -/
theorem downloadTask_stateInv (s : BackendState) (model_id : String) (outcome : DlOutcome)
    (hA : loadedImpliesAvailable s = true) (hN : noTransientLoading s = true)
    (hnd : downloadInProgressOrDone s model_id = false) :
    stateInv (_download_model_task s model_id outcome) = true := by
  cases outcome with
  | success =>
    rw [_download_model_task]
    simp only
    split
    · rw [stateInv, Bool.and_eq_true]
      refine ⟨?_, hN⟩
      apply avail_insert s _ model_id
      · exact fun x hx => Or.inl hx
      · intro _
        exact Or.inl (by simp [downloadedCompleted, dictGet_set_self])
      · intro x _ _ hcomp
        by_cases hxe : x = model_id
        · subst hxe
          simp [downloadedCompleted, dictGet_set_self]
        · rw [downloadedCompleted] at hcomp ⊢
          simp only [dictGet_set_ne s.downloaded_models model_id x _ hxe]
          exact hcomp
      · intro x _ _ hcache
        exact (contains_mem _ _).mpr ((mem_listInsert _ _ _).mpr
          (Or.inl ((contains_mem _ _).mp hcache)))
      · exact hA
    · rw [stateInv, Bool.and_eq_true]
      refine ⟨?_, hN⟩
      apply avail_insert s _ model_id
      · intro x hx
        exact (mem_listInsert _ _ _).mp hx
      · intro _
        exact Or.inl (by simp [downloadedCompleted, dictGet_set_self])
      · intro x _ _ hcomp
        by_cases hxe : x = model_id
        · subst hxe
          simp [downloadedCompleted, dictGet_set_self]
        · rw [downloadedCompleted] at hcomp ⊢
          simp only [dictGet_set_ne s.downloaded_models model_id x _ hxe]
          exact hcomp
      · intro x _ _ hcache
        exact (contains_mem _ _).mpr ((mem_listInsert _ _ _).mpr
          (Or.inl ((contains_mem _ _).mp hcache)))
      · exact hA
  | failure started =>
    rw [_download_model_task]
    split
    · rw [stateInv, Bool.and_eq_true]
      refine ⟨?_, hN⟩
      apply avail_insert s _ model_id
      · exact fun x hx => Or.inl hx
      · intro hmem
        have hav := List.all_eq_true.mp hA model_id hmem
        simp only [Bool.or_eq_true] at hav
        rcases hav with hcomp | hcache
        · rw [guard_not_completed s model_id hnd] at hcomp
          exact absurd hcomp (by simp)
        · exact Or.inr hcache
      · intro x _ _ hcomp
        by_cases hxe : x = model_id
        · subst hxe
          rw [guard_not_completed s x hnd] at hcomp
          exact absurd hcomp (by simp)
        · rw [downloadedCompleted] at hcomp ⊢
          simp only [dictGet_set_ne s.downloaded_models model_id x _ hxe]
          exact hcomp
      · exact fun x _ _ hcache => hcache
      · exact hA
    · rw [stateInv, Bool.and_eq_true]
      exact ⟨hA, hN⟩

/-- A finished `_load_model_task` preserves the invariants, provided the
model was available (downloaded-completed or cache-resident) when the load
was admitted. -/
theorem loadTask_stateInv (s : BackendState) (model_id : String) (ok : Bool)
    (errMsg : String)
    (hA : loadedImpliesAvailable s = true) (hN : noTransientLoading s = true)
    (havail : downloadedCompleted s model_id = true ∨ s.hf_cache.contains model_id = true) :
    stateInv (_load_model_task s model_id ok errMsg) = true := by
  rw [_load_model_task]
  cases ok with
  | true =>
    rw [if_pos rfl, stateInv, Bool.and_eq_true]
    constructor
    · apply avail_insert s _ model_id
      · intro x hx
        exact (mem_listInsert _ _ _).mp hx
      · intro _
        exact havail
      · intro x _ _ hcomp
        exact hcomp
      · intro x _ _ hcache
        exact hcache
      · exact hA
    · exact dictAll_set s.loading_models _ model_id ⟨"completed", 100, none⟩ hN (by decide)
  | false =>
    rw [if_neg (by simp), stateInv, Bool.and_eq_true]
    constructor
    · apply avail_insert s _ model_id
      · intro x hx
        exact Or.inl ((mem_listRemove _ _ _).mp hx).1
      · intro hmem
        exact absurd rfl ((mem_listRemove _ _ _).mp hmem).2
      · intro x _ _ hcomp
        exact hcomp
      · intro x _ _ hcache
        exact hcache
      · exact hA
    · exact dictAll_set s.loading_models _ model_id ⟨"failed", 0, some errMsg⟩ hN (by rfl)

/-- `delete_downloaded_model` preserves the invariants. -/
theorem delete_stateInv (s : BackendState) (author model : String)
    (hA : loadedImpliesAvailable s = true) (hN : noTransientLoading s = true) :
    stateInv (delete_downloaded_model s author model).2 = true := by
  rw [delete_downloaded_model]
  simp only
  have key : ∀ t : BackendState,
      t.loaded_models = listRemove s.loaded_models (author ++ "/" ++ model) →
      t.downloaded_models = dictDel s.downloaded_models (author ++ "/" ++ model) →
      t.hf_cache = listRemove s.hf_cache (author ++ "/" ++ model) →
      t.loading_models = s.loading_models →
      stateInv t = true := by
    intro t hlm hdm hcache hloading
    rw [stateInv, Bool.and_eq_true]
    constructor
    · apply avail_insert s t (author ++ "/" ++ model)
      · intro x hx
        rw [hlm] at hx
        exact Or.inl ((mem_listRemove _ _ _).mp hx).1
      · intro hmem
        rw [hlm] at hmem
        exact absurd rfl ((mem_listRemove _ _ _).mp hmem).2
      · intro x hx _ hcomp
        rw [hlm] at hx
        have hne : x ≠ author ++ "/" ++ model := ((mem_listRemove _ _ _).mp hx).2
        rw [downloadedCompleted] at hcomp ⊢
        rw [hdm, dictGet_del_ne _ _ _ hne]
        exact hcomp
      · intro x hx _ hc
        rw [hlm] at hx
        have hne : x ≠ author ++ "/" ++ model := ((mem_listRemove _ _ _).mp hx).2
        rw [hcache]
        exact (contains_mem _ _).mpr
          ((mem_listRemove _ _ _).mpr ⟨(contains_mem _ _).mp hc, hne⟩)
      · exact hA
    · rw [noTransientLoading, hloading]
      exact hN
  split
  · split
    · exact key _ rfl rfl rfl rfl
    · exact key _ rfl rfl rfl rfl
  · split
    · exact key _ rfl rfl rfl rfl
    · exact key _ rfl rfl rfl rfl

/-- The lazy cleanup of loading statuses preserves the invariants. -/
theorem cleanup_stateInv (s : BackendState) (stale : List String)
    (hA : loadedImpliesAvailable s = true) (hN : noTransientLoading s = true) :
    stateInv (_cleanup_loading_status s stale) = true := by
  rw [_cleanup_loading_status, stateInv, Bool.and_eq_true]
  constructor
  · exact hA
  · exact dictAll_filter s.loading_models _ _ hN

/-- One serialized request preserves both registry invariants. -/
theorem stateInv_step (s : BackendState) (e : Ev) (h : stateInv s = true) :
    stateInv (step s e) = true := by
  rw [stateInv, Bool.and_eq_true] at h
  obtain ⟨hA, hN⟩ := h
  cases e with
  | download model_id outcome =>
    simp only [step, download_model]
    split
    · rw [stateInv, Bool.and_eq_true]
      exact ⟨hA, hN⟩
    · split
      · rw [stateInv, Bool.and_eq_true]
        exact ⟨hA, hN⟩
      · next hnd =>
        exact downloadTask_stateInv s model_id outcome hA hN (Bool.eq_false_iff.mpr hnd)
  | load model_id ok errMsg =>
    simp only [step, load_model]
    split
    · rw [stateInv, Bool.and_eq_true]
      exact ⟨hA, hN⟩
    · split
      · rw [stateInv, Bool.and_eq_true]
        exact ⟨hA, hN⟩
      · split
        · rw [stateInv, Bool.and_eq_true]
          exact ⟨hA, hN⟩
        · split
          · rw [stateInv, Bool.and_eq_true]
            exact ⟨hA, hN⟩
          · next havail =>
            apply loadTask_stateInv s model_id ok errMsg hA hN
            cases hdc : downloadedCompleted s model_id with
            | true => exact Or.inl rfl
            | false =>
              cases hcc : s.hf_cache.contains model_id with
              | true => exact Or.inr rfl
              | false =>
                have hfalse : (!downloadedCompleted s model_id
                    && !(!downloadedCompleted s model_id
                         && s.hf_cache.contains model_id)) = true := by
                  rw [hdc, hcc]; rfl
                exact absurd hfalse havail
  | deleteModel author model =>
    exact delete_stateInv s author model hA hN
  | cleanup stale =>
    exact cleanup_stateInv s stale hA hN

/-- Running any sequence of serialized requests preserves the invariants. -/
theorem stateInv_runEvents (s : BackendState) (evs : List Ev) (h : stateInv s = true) :
    stateInv (runEvents s evs) = true := by
  induction evs generalizing s with
  | nil => exact h
  | cons e rest ih =>
    rw [runEvents, List.foldl_cons]
    exact ih (step s e) (stateInv_step s e h)

/-- Both registry invariants hold in every reachable state. -/
theorem reachable_stateInv (s : BackendState) (h : Reachable s) : stateInv s = true := by
  obtain ⟨cache, evs, rfl⟩ := h
  exact stateInv_runEvents (initState cache) evs rfl

/-- Every denylist entry extends either `"import"` or `"from"`. -/
theorem disallowed_start_import_or_from :
    disallowed_imports.all
      (fun d => charsStart "import".data d.data || charsStart "from".data d.data) = true := by
  decide

/-- C5: a code fragment whose lower-cased text contains neither the substring
`"import"` nor the substring `"from"` (hence no import construct in the
checker's own sense) is accepted by the admission check: it is rejected
neither by the denylist nor by the allow-list rule of step 2. -/
theorem C5_no_import_construct_passes (code code_type : String)
    (h1 : strHas (strLower code) "import" = false)
    (h2 : strHas (strLower code) "from" = false) :
    _validate_and_sanitize_code code code_type = .ok code := by
  have hfind : disallowed_imports.find? (fun d => strHas (strLower code) d) = none := by
    apply List.find?_eq_none.mpr
    intro d hd
    have hdis := List.all_eq_true.mp disallowed_start_import_or_from d hd
    simp only [Bool.or_eq_true] at hdis
    simp only [Bool.not_eq_true]
    apply Bool.eq_false_iff.mpr
    intro hcon
    rcases hdis with hstart | hstart
    · have hx := strHas_mono (strLower code) "import" d hstart hcon
      rw [h1] at hx
      exact absurd hx (by simp)
    · have hx := strHas_mono (strLower code) "from" d hstart hcon
      rw [h2] at hx
      exact absurd hx (by simp)
  rw [_validate_and_sanitize_code, hfind, h1, h2]
  simp

/-- Witness for C5 at the concrete fragment `"x = tokenizer(text)"`. -/
theorem C5_witness :
    strHas (strLower "x = tokenizer(text)") "import" = false ∧
    strHas (strLower "x = tokenizer(text)") "from" = false ∧
    _validate_and_sanitize_code "x = tokenizer(text)" "tokenizer" = .ok "x = tokenizer(text)" :=
  ⟨by decide, by decide,
   C5_no_import_construct_passes "x = tokenizer(text)" "tokenizer" (by decide) (by decide)⟩

/-- C6: a tokenizer fragment whose lower-cased text contains any denylisted
substring is rejected by admission whatever the other two fragments say,
and the rejection is an admission error produced before the restricted
namespace is constructed and before any fragment is evaluated (the event
trace of the run is empty). -/
theorem C6_denylisted_tokenizer_rejected_before_eval (sb : Sandbox)
    (tokenizer_code model_code function_code input_text model_id d : String)
    (hd : d ∈ disallowed_imports)
    (h : strHas (strLower tokenizer_code) d = true) :
    (∃ e : HTTPException,
      (_execute_custom_task sb tokenizer_code model_code function_code
        input_text model_id).1 = .error (execFailed (.http e))) ∧
    (_execute_custom_task sb tokenizer_code model_code function_code
        input_text model_id).2 = [] := by
  have hx : (disallowed_imports.find? (fun p => strHas (strLower tokenizer_code) p)).isSome
      = true := List.find?_isSome.mpr ⟨d, hd, h⟩
  obtain ⟨d0, hf⟩ := Option.isSome_iff_exists.mp hx
  have hval : _validate_and_sanitize_code tokenizer_code "tokenizer" =
      .error ⟨400, "Security violation: " ++ d0 ++ " is not allowed in "
                    ++ "tokenizer" ++ " code"⟩ := by
    rw [_validate_and_sanitize_code, hf]
  constructor
  · exact ⟨⟨400, "Security violation: " ++ d0 ++ " is not allowed in "
                    ++ "tokenizer" ++ " code"⟩,
      by rw [_execute_custom_task, hval]⟩
  · rw [_execute_custom_task, hval]

/-- Witness for C6: `"import subprocess"` as tokenizer code is rejected with
no evaluation events, even though the model fragment is itself denylisted. -/
theorem C6_witness :
    ("import subprocess" ∈ disallowed_imports) ∧
    strHas (strLower "import subprocess") "import subprocess" = true ∧
    ((∃ e : HTTPException,
        (_execute_custom_task sbW "import subprocess" "import sys" "r = 1"
          "hello" "bert-base-uncased").1 = .error (execFailed (.http e))) ∧
      (_execute_custom_task sbW "import subprocess" "import sys" "r = 1"
          "hello" "bert-base-uncased").2 = []) :=
  ⟨by decide, by decide,
   C6_denylisted_tokenizer_rejected_before_eval sbW "import subprocess" "import sys"
     "r = 1" "hello" "bert-base-uncased" "import subprocess" (by decide) (by decide)⟩

/-- C2 counterexample: with a denylisted tokenizer fragment AND a denylisted
model fragment (`"import sys"`), the caller receives only the tokenizer
error; the response's single error string does not mention the model
fragment's violation at all. -/
theorem C2_counterexample :
    execute_custom_task sbW ⟨"import os", "import sys", "r = 1", "text", "m"⟩ =
      .ok ⟨.pynone, some "400: Custom task execution failed: 400: Security violation: import os is not allowed in tokenizer code"⟩ ∧
    strHas "400: Custom task execution failed: 400: Security violation: import os is not allowed in tokenizer code" "import sys" = false ∧
    strHas "400: Custom task execution failed: 400: Security violation: import os is not allowed in tokenizer code" "model" = false :=
  ⟨rfl, by decide, by decide⟩

/-- Shared helper: if some fragment fails admission, the endpoint's reply is
the envelope wrapping exactly the first such error. -/
theorem firstError_envelope (sb : Sandbox) (t m f inp mid : String)
    (e : HTTPException) (h : firstAdmissionError t m f = some e) :
    execute_custom_task sb ⟨t, m, f, inp, mid⟩ =
      .ok ⟨.pynone, some (PyExc.toStr (.http (execFailed (.http e))))⟩ := by
  rw [firstAdmissionError] at h
  cases h1 : _validate_and_sanitize_code t "tokenizer" with
  | error e1 =>
    rw [h1] at h
    have h' : some e1 = some e := h
    cases h'
    simp only [execute_custom_task, _execute_custom_task, h1]
  | ok s1 =>
    rw [h1] at h
    cases h2 : _validate_and_sanitize_code m "model" with
    | error e2 =>
      rw [h2] at h
      have h' : some e2 = some e := h
      cases h'
      simp only [execute_custom_task, _execute_custom_task, h1, h2]
    | ok s2 =>
      rw [h2] at h
      cases h3 : _validate_and_sanitize_code f "function" with
      | error e3 =>
        rw [h3] at h
        have h' : some e3 = some e := h
        cases h'
        simp only [execute_custom_task, _execute_custom_task, h1, h2, h3]
      | ok s3 =>
        rw [h3] at h
        exact absurd h (by simp)

/-- C2 amended: admission runs sequentially in the order tokenizer, model,
function, and the first failing fragment aborts the request; the caller
receives exactly that one fragment's error (wrapped by the executor and
stringified by the endpoint), independent of the remaining fragments. -/
theorem C2_amended_first_error_only (sb : Sandbox) (t m f inp mid : String)
    (e : HTTPException) (h : firstAdmissionError t m f = some e) :
    execute_custom_task sb ⟨t, m, f, inp, mid⟩ =
      .ok ⟨.pynone, some (PyExc.toStr (.http (execFailed (.http e))))⟩ :=
  firstError_envelope sb t m f inp mid e h

/-- Witness for C2 amended at a request whose tokenizer and model fragments
are both denylisted. -/
theorem C2_amended_witness :
    firstAdmissionError "import os" "import sys" "r = 1" =
      some ⟨400, "Security violation: import os is not allowed in tokenizer code"⟩ ∧
    execute_custom_task sbW ⟨"import os", "import sys", "r = 1", "x", "mid"⟩ =
      .ok ⟨.pynone, some (PyExc.toStr (.http (execFailed (.http
        ⟨400, "Security violation: import os is not allowed in tokenizer code"⟩))))⟩ :=
  ⟨rfl, C2_amended_first_error_only sbW "import os" "import sys" "r = 1" "x" "mid"
    ⟨400, "Security violation: import os is not allowed in tokenizer code"⟩ rfl⟩

/-- Strings: occurrence is preserved by prepending. -/
theorem strHas_pad_left (q s p : String) (h : strHas s p = true) :
    strHas (q ++ s) p = true := by
  show charsHas p.data (q ++ s).data = true
  have hd : (q ++ s).data = q.data ++ s.data := by
    cases q
    cases s
    rfl
  rw [hd]
  exact charsHas_append_right p.data q.data s.data h

/-- C3 counterexample: a request whose tokenizer fragment fails admission
(`"from sys"` is denylisted) is answered with a normal `200` envelope whose
`error` field carries the message inline — the endpoint does NOT respond
with an HTTP 400 fault, because its `except Exception` catches the
internally raised `HTTPException`. -/
theorem C3_counterexample :
    execute_custom_task sbW ⟨"from sys", "m = 1", "r = 1", "x", "mid"⟩ =
      .ok ⟨.pynone, some "400: Custom task execution failed: 400: Security violation: from sys is not allowed in tokenizer code"⟩ :=
  rfl

/-- C3 amended: when a fragment fails the static admission policy, the
service answers with the normal response envelope (`result = None`) whose
inline error string contains the admission detail naming the offending
fragment and the violated rule; no HTTP fault is produced. -/
theorem C3_amended_inline_rejection (sb : Sandbox) (t m f inp mid : String)
    (e : HTTPException) (h : firstAdmissionError t m f = some e) :
    ∃ msg : String, execute_custom_task sb ⟨t, m, f, inp, mid⟩ =
      .ok ⟨.pynone, some msg⟩ ∧ strHas msg e.detail = true := by
  refine ⟨PyExc.toStr (.http (execFailed (.http e))), firstError_envelope sb t m f inp mid e h, ?_⟩
  show strHas (toString (400 : Nat) ++ ": " ++
      ("Custom task execution failed: " ++ (toString e.status_code ++ ": " ++ e.detail)))
      e.detail = true
  exact strHas_pad_left _ _ _ (strHas_pad_left _ _ _ (strHas_append_self _ _))

/-- Witness for C3 amended: concrete rejected request; the inline message
contains the admission detail. -/
theorem C3_amended_witness :
    firstAdmissionError "from subprocess" "m = 1" "r = 1" =
      some ⟨400, "Security violation: from subprocess is not allowed in tokenizer code"⟩ ∧
    ∃ msg : String,
      execute_custom_task sbW ⟨"from subprocess", "m = 1", "r = 1", "x", "mid"⟩ =
        .ok ⟨.pynone, some msg⟩ ∧
      strHas msg "Security violation: from subprocess is not allowed in tokenizer code" = true :=
  ⟨rfl, C3_amended_inline_rejection sbW "from subprocess" "m = 1" "r = 1" "x" "mid"
    ⟨400, "Security violation: from subprocess is not allowed in tokenizer code"⟩ rfl⟩

/-- C1: with three input texts and a `custom_function` returning a list of
length 2, the batch endpoint reports SUCCESS: `results` is the 2-element
list as returned and `errors` is `[None, None]` — there is no
`ContractViolation`, no length check against `len(input_texts)`, and the
response lists do not have length 3.  This contradicts the code's own
stated contract ("custom_function must return a list of results, one per
input text" / `-> List[Any]` with one entry per input). -/
theorem C1_length_mismatch_not_rejected :
    execute_custom_task_batch sbLenBug ⟨"t = 1", "m = 1", "r = 1", ["a", "b", "c"], "mid"⟩ =
      .ok ⟨[.atom 1, .atom 2], [none, none]⟩ :=
  rfl

/-- C9: neither custom-task endpoint ever propagates an exception as an HTTP
fault: both always answer with a normal envelope, and whenever the inner
computation raises (admission `HTTPException` included), the single
endpoint answers `result = None` with the stringified exception, and the
batch endpoint answers `len(input_texts)` null results and
`len(input_texts)` copies of the stringified exception. -/
theorem C9_endpoints_never_fault (sb : Sandbox) (req : CustomTaskRequest)
    (breq : BatchCustomTaskRequest) :
    (∃ env, execute_custom_task sb req = .ok env) ∧
    (∃ benv, execute_custom_task_batch sb breq = .ok benv) ∧
    (∀ e : HTTPException,
      (_execute_custom_task sb req.tokenizer_code req.model_code req.function_code
        req.input_text req.model_id).1 = .error e →
      execute_custom_task sb req = .ok ⟨.pynone, some (PyExc.toStr (.http e))⟩) ∧
    (∀ e : PyExc, batchTaskInner sb breq = .error e →
      execute_custom_task_batch sb breq =
        .ok ⟨List.replicate breq.input_texts.length .pynone,
             List.replicate breq.input_texts.length (some e.toStr)⟩) := by
  refine ⟨?_, ?_, ?_, ?_⟩
  · cases h : (_execute_custom_task sb req.tokenizer_code req.model_code req.function_code
        req.input_text req.model_id).1 with
    | ok v => exact ⟨⟨v, none⟩, by rw [execute_custom_task, h]⟩
    | error e => exact ⟨⟨.pynone, some (PyExc.toStr (.http e))⟩, by rw [execute_custom_task, h]⟩
  · cases h : batchTaskInner sb breq with
    | ok results =>
      exact ⟨⟨results, List.replicate results.length none⟩,
        by rw [execute_custom_task_batch, h]⟩
    | error e =>
      exact ⟨⟨List.replicate breq.input_texts.length .pynone,
              List.replicate breq.input_texts.length (some e.toStr)⟩,
        by rw [execute_custom_task_batch, h]⟩
  · intro e h
    rw [execute_custom_task, h]
  · intro e h
    rw [execute_custom_task_batch, h]

/-- Witness for C9: a tokenizer fragment that raises is reported inline by
both endpoints with the expected envelope shapes. -/
theorem C9_witness :
    execute_custom_task sbRaise ⟨"t = 1", "m = 1", "r = 1", "x", "mid"⟩ =
      .ok ⟨.pynone, some (PyExc.toStr (.http (execFailed (.generic "boom"))))⟩ ∧
    execute_custom_task_batch sbRaise ⟨"t = 1", "m = 1", "r = 1", ["a", "b"], "mid"⟩ =
      .ok ⟨List.replicate 2 .pynone, List.replicate 2 (some (PyExc.toStr (.generic "boom")))⟩ :=
  ⟨(C9_endpoints_never_fault sbRaise ⟨"t = 1", "m = 1", "r = 1", "x", "mid"⟩
      ⟨"t = 1", "m = 1", "r = 1", ["a", "b"], "mid"⟩).2.2.1
      (execFailed (.generic "boom")) rfl,
   (C9_endpoints_never_fault sbRaise ⟨"t = 1", "m = 1", "r = 1", "x", "mid"⟩
      ⟨"t = 1", "m = 1", "r = 1", ["a", "b"], "mid"⟩).2.2.2
      (.generic "boom") rfl⟩

/-- C4 counterexample: in the reachable state obtained by loading a model
that is present only in the HF cache, the model is in `loaded_models` but
`downloaded_models` has no entry for it at all — in particular none with
status `"completed"`. -/
theorem C4_counterexample :
    Reachable c4_state ∧
    c4_state.loaded_models.contains "org/model" = true ∧
    dictGet c4_state.downloaded_models "org/model" = none :=
  ⟨⟨["org/model"], c4_trace, rfl⟩, by decide, by decide⟩

/-- C4 amended: at every reachable state, a loaded model is recorded as
downloaded-completed OR is present in the external HF cache (loading from
the cache installs handles without creating a `downloaded_models`
entry). -/
theorem C4_amended_loaded_implies_available (s : BackendState) (h : Reachable s) :
    loadedImpliesAvailable s = true := by
  have hinv := reachable_stateInv s h
  rw [stateInv, Bool.and_eq_true] at hinv
  exact hinv.1

/-- Witness for C4 amended at the state reached by one successful service
download. -/
theorem C4_amended_witness :
    loadedImpliesAvailable (runEvents (initState []) [.download "org/m2" .success]) = true :=
  C4_amended_loaded_implies_available _ ⟨[], [.download "org/m2" .success], rfl⟩

/-- C7 counterexample to the stated iff: the empty model id is neither
recorded as downloaded nor in the cache, yet the load request does NOT
fail with the NotAvailable message — it fails with the input-validation
message instead. -/
theorem C7_counterexample :
    Reachable (initState []) ∧
    downloadedCompleted (initState []) "" = false ∧
    (initState []).hf_cache.contains "" = false ∧
    (load_model (initState []) "" true "").1 =
      .fault 400 "model_id must be a non-empty string" ∧
    (load_model (initState []) "" true "").1 ≠
      .fault 400 "Model is not downloaded, not ready, and not found in cache." :=
  ⟨⟨[], [], rfl⟩, rfl, rfl, rfl, by decide⟩

/-- C7 amended: for every reachable state and NON-EMPTY model id, the load
request fails with the 400 NotAvailable fault exactly when the model is
neither recorded as downloaded-completed nor present in the HF cache; and
in that case the request leaves the stores untouched and schedules no
background load unit. -/
theorem C7_amended_not_available_iff (s : BackendState) (model_id : String) (ok : Bool)
    (errMsg : String) (hreach : Reachable s) (hne : model_id ≠ "") :
    ((load_model s model_id ok errMsg).1 =
        .fault 400 "Model is not downloaded, not ready, and not found in cache." ↔
      (downloadedCompleted s model_id = false ∧ s.hf_cache.contains model_id = false)) ∧
    (downloadedCompleted s model_id = false → s.hf_cache.contains model_id = false →
      load_model s model_id ok errMsg =
        (.fault 400 "Model is not downloaded, not ready, and not found in cache.", s, false)) := by
  have hinv := reachable_stateInv s hreach
  rw [stateInv, Bool.and_eq_true] at hinv
  obtain ⟨hA, hN⟩ := hinv
  have hbeq : (model_id == "") = false := beq_eq_false_iff_ne.mpr hne
  have hfull : downloadedCompleted s model_id = false → s.hf_cache.contains model_id = false →
      load_model s model_id ok errMsg =
        (.fault 400 "Model is not downloaded, not ready, and not found in cache.", s, false) := by
    intro hdc hcc
    have hnl : alreadyLoaded s model_id = false := by
      apply Bool.eq_false_iff.mpr
      intro hcon
      rw [alreadyLoaded, Bool.and_eq_true] at hcon
      have hmem := (contains_mem _ _).mp hcon.1
      rw [loadedImpliesAvailable] at hA
      have hav := List.all_eq_true.mp hA model_id hmem
      simp only [Bool.or_eq_true] at hav
      rcases hav with hx | hx
      · rw [hdc] at hx
        exact absurd hx (by simp)
      · rw [hcc] at hx
        exact absurd hx (by simp)
    have hng : loadingInProgress s model_id = false := by
      rw [loadingInProgress]
      cases hlg : dictGet s.loading_models model_id with
      | none => rfl
      | some st =>
        have hst := dictAll_get s.loading_models _ model_id st hN hlg
        have hst2 : (!(st.status == "loading")) = true := hst
        show (st.status == "loading") = false
        cases hsb : st.status == "loading" with
        | false => rfl
        | true =>
          rw [hsb] at hst2
          exact absurd hst2 (by decide)
    rw [load_model, hbeq, hnl, hng, hdc, hcc]
    simp
  refine ⟨⟨?_, fun hb => by rw [hfull hb.1 hb.2]⟩, hfull⟩
  intro hres
  cases hdc : downloadedCompleted s model_id with
  | false =>
    cases hcc : s.hf_cache.contains model_id with
    | false => exact ⟨rfl, rfl⟩
    | true =>
      exfalso
      cases hal : alreadyLoaded s model_id with
      | true =>
        rw [load_model, hbeq, hal] at hres
        simp at hres
      | false =>
        cases hlp : loadingInProgress s model_id with
        | true =>
          rw [load_model, hbeq, hal, hlp] at hres
          simp at hres
        | false =>
          rw [load_model, hbeq, hal, hlp, hdc, hcc] at hres
          simp at hres
  | true =>
    exfalso
    cases hal : alreadyLoaded s model_id with
    | true =>
      rw [load_model, hbeq, hal] at hres
      simp at hres
    | false =>
      cases hlp : loadingInProgress s model_id with
      | true =>
        rw [load_model, hbeq, hal, hlp] at hres
        simp at hres
      | false =>
        rw [load_model, hbeq, hal, hlp, hdc] at hres
        simp at hres

/-- Witness for C7 amended at the empty initial state with model id `"m"`. -/
theorem C7_amended_witness :
    (((load_model (initState []) "m" true "").1 =
        .fault 400 "Model is not downloaded, not ready, and not found in cache." ↔
      (downloadedCompleted (initState []) "m" = false ∧
        (initState []).hf_cache.contains "m" = false)) ∧
    (downloadedCompleted (initState []) "m" = false →
      (initState []).hf_cache.contains "m" = false →
      load_model (initState []) "m" true "" =
        (.fault 400 "Model is not downloaded, not ready, and not found in cache.",
         initState [], false))) :=
  C7_amended_not_available_iff (initState []) "m" true "" ⟨[], [], rfl⟩ (by decide)

/-- C8: whenever the background load unit fails, the loading-status entry of
the model is `"failed"` with the error message recorded, and no partial
handles remain: the id is in neither `loaded_models` nor
`loaded_tokenizers` afterwards. -/
theorem C8_failed_load_all_or_nothing (s : BackendState) (model_id errMsg : String) :
    dictGet (_load_model_task s model_id false errMsg).loading_models model_id =
      some ⟨"failed", 0, some errMsg⟩ ∧
    (_load_model_task s model_id false errMsg).loaded_models.contains model_id = false ∧
    (_load_model_task s model_id false errMsg).loaded_tokenizers.contains model_id = false := by
  rw [_load_model_task]
  rw [if_neg (by simp)]
  exact ⟨dictGet_set_self _ _ _, contains_listRemove_self _ _, contains_listRemove_self _ _⟩

/-- C10: a download or load request with the empty model id fails up front
with the input-validation 400, schedules no background unit, and leaves
every store exactly as it was. -/
theorem C10_empty_model_id_rejected (s : BackendState) (outcome : DlOutcome)
    (ok : Bool) (errMsg : String) :
    download_model s "" outcome = (.fault 400 "model_id must be a non-empty string", s, false) ∧
    load_model s "" ok errMsg = (.fault 400 "model_id must be a non-empty string", s, false) :=
  ⟨rfl, rfl⟩
